import Mathlib

/-
Verification of the UpscalePipe archive migration safety engine
(src/upscalebus/core: operation.py, scan.py, process.py).

The Python code is shallowly embedded: filesystem reads are passed in as
explicit snapshot values, float thresholds are modelled as exact rationals
(numerator/denominator pairs compared by cross multiplication), and calls
into external processes are modelled by an oracle describing the outcome
of the call.  Python exceptions raised by library calls (os.path.getsize,
shutil.copy2, subprocess.run, zipfile.ZipFile) are modelled by Option
results or explicit failure flags.
-/

/-! ### String helpers

Python's str.lower() and str.endswith are modelled on the character list
of the string, so that they evaluate inside the kernel. -/

/-- ASCII lower-casing of one character, as used by str.lower on the
    ASCII file names and extensions appearing in this development. -/
def lowChar (c : Char) : Char :=
  if 65 ≤ c.toNat && c.toNat ≤ 90 then Char.ofNat (c.toNat + 32) else c

/-- Model of Python str.lower. -/
def lowStr (s : String) : String := String.mk (s.data.map lowChar)

/-- Model of Python str.endswith for a single suffix. -/
def endsWithStr (s suffix : String) : Bool := suffix.data.isSuffixOf s.data

/-- Model of Python os.path.join for the POSIX paths used in the scanner. -/
def path_join (dir item : String) : String := dir ++ "/" ++ item

/-! ### Exact thresholds

The Python code compares sizes and counts against a float threshold such
as 0.5.  A threshold is modelled as the exact rational num/den and the
comparisons are carried out by cross multiplication over Nat. -/

/-- An exact rational threshold num/den with den positive. -/
structure Frac where
  num : Nat
  den : Nat
deriving DecidableEq

/-- Models the Python comparison a < b * f (f the threshold num/den). -/
def Frac.ltMul (f : Frac) (a b : Nat) : Bool := a * f.den < b * f.num

/-- Models the Python comparison a < b * (1 - f).  For f ≤ 1 the Nat
    subtraction den - num is exactly den * (1 - f); for f > 1 the right
    hand side is negative in Python and truncated to zero here, and both
    comparisons are false since a, b are nonnegative. -/
def Frac.ltMulOneSub (f : Frac) (a b : Nat) : Bool := a * f.den < b * (f.den - f.num)

/-! ### Configuration (config.get_value reads in operation.py / scan.py) -/

/-- The configuration values read by the safety comparator, the scanner
    and the corrupted-archive batch. -/
structure Config where
  min_valid_file_size : Nat
  size_difference_threshold : Frac
  file_count_difference_threshold : Frac
  archive_extensions : List String
  ignored_extensions : List String

/-- Does the path match a configured archive extension, as in
    any(path.lower().endswith(ext) for ext in archive_extensions). -/
def has_archive_ext (cfg : Config) (path : String) : Bool :=
  cfg.archive_extensions.any (fun ext => endsWithStr (lowStr path) ext)

/-! ### operation.py: count_files_in_zip and is_safe_to_overwrite -/

/-- One entry of a zip archive: its name in the archive listing and the
    uncompressed size reported by getinfo(name).file_size. -/
structure ZipEntry where
  name : String
  file_size : Nat
deriving DecidableEq

/-- Snapshot of a file on disk: its size (os.path.getsize) and, for an
    archive, its entry listing; zip = none models zipfile.ZipFile
    raising on open. -/
structure FileData where
  size : Nat
  zip : Option (List ZipEntry)

/-- count_files_in_zip: number of entries whose lower-cased name does not
    end with an ignored extension, whose name does not end with '/', and
    whose size is positive, together with the sum of those sizes.  Any
    open failure yields (0, 0). -/
def count_files_in_zip (cfg : Config) (z : Option (List ZipEntry)) : Nat × Nat :=
  match z with
  | none => (0, 0)
  | some entries =>
    let valid := entries.filter (fun e =>
      !(cfg.ignored_extensions.any (fun ext => endsWithStr (lowStr e.name) ext))
      && !(endsWithStr e.name "/")
      && decide (0 < e.file_size))
    (valid.length, (valid.map (fun e => e.file_size)).sum)

/-- The reason strings returned by is_safe_to_overwrite, as an enum. -/
inductive Reason where
  | source_missing
  | source_too_small
  | source_smaller_than_target
  | fewer_files_in_archive
  | smaller_archive_content
  | target_missing_can_copy
  | check_passed
deriving DecidableEq

/-- The source_info / target_info dictionaries: always a size, plus the
    files and content_size keys added only when the archive entry
    comparison ran. -/
structure PathInfo where
  size : Nat
  files : Option Nat
  content_size : Option Nat
deriving DecidableEq

/-- The 4-tuple returned by is_safe_to_overwrite. -/
structure SafeVerdict where
  is_safe : Bool
  reason : Reason
  source_info : Option PathInfo
  target_info : Option PathInfo
deriving DecidableEq

/-- Info dictionary holding only the size key. -/
def basic_info (size : Nat) : PathInfo := ⟨size, none, none⟩

/-- is_safe_to_overwrite from operation.py.  The source and target
    arguments are the snapshots of the two paths (none = the path does
    not exist).  Note that the archive entry comparison is guarded by an
    extension test on source_path only; target_path is never consulted. -/
def is_safe_to_overwrite (cfg : Config) (source_path target_path : String)
    (source target : Option FileData) : SafeVerdict :=
  match source with
  | none => ⟨false, .source_missing, none, none⟩
  | some s =>
    match target with
    | none =>
      if s.size < cfg.min_valid_file_size then
        ⟨false, .source_too_small, some (basic_info s.size), none⟩
      else
        ⟨true, .target_missing_can_copy, some (basic_info s.size), none⟩
    | some t =>
      if s.size < cfg.min_valid_file_size then
        ⟨false, .source_too_small, some (basic_info s.size), some (basic_info t.size)⟩
      else if cfg.size_difference_threshold.ltMul s.size t.size then
        ⟨false, .source_smaller_than_target, some (basic_info s.size), some (basic_info t.size)⟩
      else if has_archive_ext cfg source_path then
        let sc := count_files_in_zip cfg s.zip
        let tc := count_files_in_zip cfg t.zip
        let si : PathInfo := ⟨s.size, some sc.1, some sc.2⟩
        let ti : PathInfo := ⟨t.size, some tc.1, some tc.2⟩
        if cfg.file_count_difference_threshold.ltMulOneSub sc.1 tc.1 then
          ⟨false, .fewer_files_in_archive, some si, some ti⟩
        else if cfg.size_difference_threshold.ltMul sc.2 tc.2 then
          ⟨false, .smaller_archive_content, some si, some ti⟩
        else
          ⟨true, .check_passed, some si, some ti⟩
      else
        ⟨true, .check_passed, some (basic_info s.size), some (basic_info t.size)⟩

/-- The default configuration values hard-coded in operation.py and
    scan.py (1MB minimum size, 0.5 size threshold, 0.0 count threshold). -/
def cfgDefault : Config :=
  { min_valid_file_size := 1024 * 1024
    size_difference_threshold := ⟨1, 2⟩
    file_count_difference_threshold := ⟨0, 1⟩
    archive_extensions := [".zip", ".cbz", ".rar", ".7z"]
    ignored_extensions := [".md", ".yaml", ".yml", ".txt", ".json", ".db", ".ini"] }

/-- C1: for existing source and target files with source size at least
    min_valid_file_size, if source size < target size times the size
    difference threshold then the verdict is unsafe (with the source
    smaller than target reason), whatever the archive contents are. -/
theorem source_below_size_threshold_unsafe
    (cfg : Config) (sp tp : String) (s t : FileData)
    (hmin : cfg.min_valid_file_size ≤ s.size)
    (hlt : cfg.size_difference_threshold.ltMul s.size t.size = true) :
    (is_safe_to_overwrite cfg sp tp (some s) (some t)).is_safe = false ∧
    (is_safe_to_overwrite cfg sp tp (some s) (some t)).reason =
      Reason.source_smaller_than_target := by
  rw [is_safe_to_overwrite, if_neg (Nat.not_lt.mpr hmin), if_pos hlt]
  exact ⟨rfl, rfl⟩

/-- C1 witness: a 10-byte source over a 100-byte target with threshold
    1/2 and minimum size 1 is rejected as unsafe. -/
theorem source_below_size_threshold_unsafe_witness :
    (is_safe_to_overwrite ⟨1, ⟨1, 2⟩, ⟨0, 1⟩, [".zip"], []⟩ "a.zip" "b.zip"
        (some ⟨10, none⟩) (some ⟨100, none⟩)).is_safe = false ∧
    (is_safe_to_overwrite ⟨1, ⟨1, 2⟩, ⟨0, 1⟩, [".zip"], []⟩ "a.zip" "b.zip"
        (some ⟨10, none⟩) (some ⟨100, none⟩)).reason =
      Reason.source_smaller_than_target :=
  source_below_size_threshold_unsafe _ "a.zip" "b.zip" ⟨10, none⟩ ⟨100, none⟩
    (by decide) (by decide)

/-- C4: when the source exists and the target does not, the verdict is
    safe whenever the source size reaches min_valid_file_size, and unsafe
    with the source-too-small reason otherwise. -/
theorem target_missing_verdict (cfg : Config) (sp tp : String) (s : FileData) :
    (cfg.min_valid_file_size ≤ s.size →
      (is_safe_to_overwrite cfg sp tp (some s) none).is_safe = true) ∧
    (s.size < cfg.min_valid_file_size →
      (is_safe_to_overwrite cfg sp tp (some s) none).is_safe = false ∧
      (is_safe_to_overwrite cfg sp tp (some s) none).reason = Reason.source_too_small) := by
  constructor
  · intro hmin
    rw [is_safe_to_overwrite, if_neg (Nat.not_lt.mpr hmin)]
  · intro hsmall
    rw [is_safe_to_overwrite, if_pos hsmall]
    exact ⟨rfl, rfl⟩

/-- C4 witness: with the default 1MB minimum, a 5MB source copies safely
    onto a missing target while a 10-byte source is rejected as too
    small. -/
theorem target_missing_verdict_witness :
    (is_safe_to_overwrite cfgDefault "a.zip" "b.zip"
        (some ⟨5242880, none⟩) none).is_safe = true ∧
    (is_safe_to_overwrite cfgDefault "a.zip" "b.zip"
        (some ⟨10, none⟩) none).reason = Reason.source_too_small :=
  ⟨(target_missing_verdict cfgDefault "a.zip" "b.zip" ⟨5242880, none⟩).1 (by decide),
   ((target_missing_verdict cfgDefault "a.zip" "b.zip" ⟨10, none⟩).2 (by decide)).2⟩

/-- C2 counterexample: the entry comparison runs even though the target
    path b.txt does not match any archive extension, because the code
    tests only the source path.  The comparison having run is visible in
    the files and content_size keys of source_info. -/
theorem entry_comparison_on_nonarchive_target :
    has_archive_ext cfgDefault "b.txt" = false ∧
    (is_safe_to_overwrite cfgDefault "a.zip" "b.txt"
        (some ⟨2097152, some [⟨"x.png", 500⟩]⟩)
        (some ⟨2097152, some [⟨"y.png", 400⟩]⟩)).source_info =
      some ⟨2097152, some 1, some 500⟩ ∧
    (is_safe_to_overwrite cfgDefault "a.zip" "b.txt"
        (some ⟨2097152, some [⟨"x.png", 500⟩]⟩)
        (some ⟨2097152, some [⟨"y.png", 400⟩]⟩)).target_info =
      some ⟨2097152, some 1, some 400⟩ := by
  refine ⟨by decide, by decide, by decide⟩

/-- C2 amended: once the earlier size rules pass, the archive entry
    comparison is gated on the source path alone.  If the source path
    matches an archive extension, both archives are counted (ignored
    extensions, directory entries and empty entries excluded, sizes
    summed) and the verdict is unsafe exactly when the source entry
    count falls below target count times (1 - file count threshold) or
    the source content size falls below target content size times the
    size threshold; if the source path does not match, no entry
    comparison is performed (the info dictionaries keep only sizes) and
    the verdict is safe. -/
theorem archive_entry_comparison_gated_on_source
    (cfg : Config) (sp tp : String) (s t : FileData)
    (hmin : cfg.min_valid_file_size ≤ s.size)
    (hsz : cfg.size_difference_threshold.ltMul s.size t.size = false) :
    (has_archive_ext cfg sp = true →
      (is_safe_to_overwrite cfg sp tp (some s) (some t)).source_info =
        some ⟨s.size, some (count_files_in_zip cfg s.zip).1,
                      some (count_files_in_zip cfg s.zip).2⟩ ∧
      (is_safe_to_overwrite cfg sp tp (some s) (some t)).target_info =
        some ⟨t.size, some (count_files_in_zip cfg t.zip).1,
                      some (count_files_in_zip cfg t.zip).2⟩ ∧
      ((is_safe_to_overwrite cfg sp tp (some s) (some t)).is_safe = false ↔
        (cfg.file_count_difference_threshold.ltMulOneSub
            (count_files_in_zip cfg s.zip).1 (count_files_in_zip cfg t.zip).1 = true ∨
         cfg.size_difference_threshold.ltMul
            (count_files_in_zip cfg s.zip).2 (count_files_in_zip cfg t.zip).2 = true))) ∧
    (has_archive_ext cfg sp = false →
      (is_safe_to_overwrite cfg sp tp (some s) (some t)).source_info =
        some ⟨s.size, none, none⟩ ∧
      (is_safe_to_overwrite cfg sp tp (some s) (some t)).target_info =
        some ⟨t.size, none, none⟩ ∧
      (is_safe_to_overwrite cfg sp tp (some s) (some t)).is_safe = true) := by
  rw [is_safe_to_overwrite, if_neg (Nat.not_lt.mpr hmin)]
  rw [if_neg (by simp [hsz])]
  constructor
  · intro harch
    rw [if_pos harch]
    by_cases hc : cfg.file_count_difference_threshold.ltMulOneSub
        (count_files_in_zip cfg s.zip).1 (count_files_in_zip cfg t.zip).1 = true
    · simp [hc]
    · by_cases hs2 : cfg.size_difference_threshold.ltMul
          (count_files_in_zip cfg s.zip).2 (count_files_in_zip cfg t.zip).2 = true
      · simp [hc, hs2]
      · simp [hc, hs2]
  · intro harch
    rw [if_neg (by simp [harch])]
    exact ⟨rfl, rfl, rfl⟩

/-- C2 amended witness: with both sides zip archives of equal size, the
    comparison runs on the entry listings (source 1 entry of 500 bytes,
    target 1 entry of 400 bytes) and passes. -/
theorem archive_entry_comparison_gated_on_source_witness :
    (is_safe_to_overwrite cfgDefault "a.zip" "b.zip"
        (some ⟨2097152, some [⟨"x.png", 500⟩]⟩)
        (some ⟨2097152, some [⟨"y.png", 400⟩]⟩)).source_info =
      some ⟨2097152, some 1, some 500⟩ ∧
    ((is_safe_to_overwrite cfgDefault "a.zip" "b.zip"
        (some ⟨2097152, some [⟨"x.png", 500⟩]⟩)
        (some ⟨2097152, some [⟨"y.png", 400⟩]⟩)).is_safe = false ↔
      (cfgDefault.file_count_difference_threshold.ltMulOneSub 1 1 = true ∨
       cfgDefault.size_difference_threshold.ltMul 500 400 = true)) :=
  ⟨((archive_entry_comparison_gated_on_source cfgDefault "a.zip" "b.zip"
      ⟨2097152, some [⟨"x.png", 500⟩]⟩ ⟨2097152, some [⟨"y.png", 400⟩]⟩
      (by decide) (by decide)).1 (by decide)).1,
   ((archive_entry_comparison_gated_on_source cfgDefault "a.zip" "b.zip"
      ⟨2097152, some [⟨"x.png", 500⟩]⟩ ⟨2097152, some [⟨"y.png", 400⟩]⟩
      (by decide) (by decide)).1 (by decide)).2.2⟩

/-! ### scan.py: scan_directory_structure

The filesystem under a directory is modelled by FsTree.  fail models
os.listdir raising for that directory.  A listed file carries the result
of os.path.getsize: none models getsize raising (e.g. a broken symbolic
link), which aborts the listing loop of the Python code after the files
before it have already been accumulated.  Because the Python code
accumulates files inline but defers subdirectories to a second loop, the
interleaving of files and subdirectories in the listing is irrelevant
and the model keeps them in two lists. -/

inductive FsTree where
  | fail : FsTree
  | node (files : List (String × Option Nat)) (subdirs : List (String × FsTree)) : FsTree

/-- One file_info dictionary built by the scanner. -/
structure FileRec where
  name : String
  path : String
  size : Nat
  is_archive : Bool
deriving DecidableEq

/-- One node of the result dictionary of scan_directory_structure. -/
inductive DirNode where
  | mk (path name : String) (subdirs : List DirNode) (files : List FileRec)
       (archive_count total_size : Nat)

def DirNode.path : DirNode → String
  | .mk p _ _ _ _ _ => p

def DirNode.name : DirNode → String
  | .mk _ n _ _ _ _ => n

def DirNode.subdirs : DirNode → List DirNode
  | .mk _ _ s _ _ _ => s

def DirNode.files : DirNode → List FileRec
  | .mk _ _ _ f _ _ => f

def DirNode.archive_count : DirNode → Nat
  | .mk _ _ _ _ a _ => a

def DirNode.total_size : DirNode → Nat
  | .mk _ _ _ _ _ t => t

/-- The first loop of scan_directory_structure over the listed files:
    each file with a readable size contributes its file_info, its size to
    total_size and, if it is an archive, one to archive_count.  A getsize
    failure aborts the loop; the error value carries the aggregates
    accumulated from the files before the failing one (the files list is
    never assigned in that case). -/
def scan_files_pass (cfg : Config) (dirPath : String) :
    List (String × Option Nat) → Except (Nat × Nat) (List FileRec × Nat × Nat)
  | [] => .ok ([], 0, 0)
  | (nm, osz) :: rest =>
    match osz with
    | none => .error (0, 0)
    | some sz =>
      let isArch := has_archive_ext cfg nm
      let fr : FileRec := ⟨nm, path_join dirPath nm, sz, isArch⟩
      match scan_files_pass cfg dirPath rest with
      | .error (ac, ts) => .error ((if isArch then 1 else 0) + ac, sz + ts)
      | .ok (frs, ac, ts) => .ok (fr :: frs, (if isArch then 1 else 0) + ac, sz + ts)

mutual

/-- scan_directory_structure from scan.py over the modelled filesystem.
    A listing failure returns the freshly initialised node (empty lists,
    zero aggregates); a getsize failure mid-listing returns the node with
    empty lists but the partially accumulated aggregates; otherwise the
    aggregates are the node's own files plus the recursively scanned
    subdirectories. -/
def scan_directory_structure (cfg : Config) (rootPath rootName : String) : FsTree → DirNode
  | .fail => .mk rootPath rootName [] [] 0 0
  | .node files subdirs =>
    match scan_files_pass cfg rootPath files with
    | .error (ac, ts) => .mk rootPath rootName [] [] ac ts
    | .ok (frs, ac, ts) =>
      let subnodes := scan_subdirs cfg rootPath subdirs
      .mk rootPath rootName subnodes frs
        (ac + (subnodes.map DirNode.archive_count).sum)
        (ts + (subnodes.map DirNode.total_size).sum)

/-- The second loop of scan_directory_structure: recurse into each
    subdirectory in listing order. -/
def scan_subdirs (cfg : Config) (rootPath : String) : List (String × FsTree) → List DirNode
  | [] => []
  | (nm, t) :: rest =>
    scan_directory_structure cfg (path_join rootPath nm) nm t :: scan_subdirs cfg rootPath rest

end

/-- The aggregation invariant claimed by the spec: at every node,
    archive_count is the number of own archive files plus the children's
    archive_count, and total_size is the sum of the own file sizes plus
    the children's total_size. -/
inductive NodeWf : DirNode → Prop where
  | mk (n : DirNode) :
      (∀ s ∈ n.subdirs, NodeWf s) →
      n.archive_count = (n.files.filter (fun f => f.is_archive)).length +
        ((n.subdirs.map DirNode.archive_count).sum) →
      n.total_size = ((n.files.map FileRec.size).sum) +
        ((n.subdirs.map DirNode.total_size).sum) →
      NodeWf n

/-- No file anywhere in the tree makes os.path.getsize raise.  Listing
    failures are still allowed. -/
inductive NoSizeFail : FsTree → Prop where
  | fail : NoSizeFail .fail
  | node (files : List (String × Option Nat)) (subdirs : List (String × FsTree)) :
      (∀ f ∈ files, (f.2).isSome = true) →
      (∀ s ∈ subdirs, NoSizeFail s.2) →
      NoSizeFail (.node files subdirs)

/-- When every listed file has a readable size, the first scanning loop
    completes with aggregates that match the collected file records. -/
theorem scan_files_pass_ok (cfg : Config) (dirPath : String)
    (files : List (String × Option Nat)) (h : ∀ f ∈ files, (f.2).isSome = true) :
    ∃ frs, scan_files_pass cfg dirPath files =
      .ok (frs, (frs.filter (fun f => f.is_archive)).length, (frs.map FileRec.size).sum) := by
  induction files with
  | nil => exact ⟨[], rfl⟩
  | cons hd tl ih =>
    obtain ⟨nm, osz⟩ := hd
    have hhd : osz.isSome = true := h (nm, osz) (by simp)
    obtain ⟨sz, rfl⟩ := Option.isSome_iff_exists.mp hhd
    obtain ⟨frs, hfrs⟩ := ih (fun f hf => h f (List.mem_cons_of_mem _ hf))
    refine ⟨⟨nm, path_join dirPath nm, sz, has_archive_ext cfg nm⟩ :: frs, ?_⟩
    rw [scan_files_pass, hfrs]
    by_cases harch : has_archive_ext cfg nm
    · simp [harch, List.filter_cons, Nat.add_comm]
    · simp [harch, List.filter_cons, Nat.add_comm]

/-- Every node produced by the subdirectory loop is the scan of one of
    the listed subdirectories. -/
theorem scan_subdirs_mem (cfg : Config) (rootPath : String)
    (l : List (String × FsTree)) :
    ∀ d ∈ scan_subdirs cfg rootPath l,
      ∃ x ∈ l, d = scan_directory_structure cfg (path_join rootPath x.1) x.1 x.2 := by
  induction l with
  | nil => intro d hd; simp [scan_subdirs] at hd
  | cons hd tl ih =>
    obtain ⟨nm, t⟩ := hd
    intro d hdm
    rw [scan_subdirs] at hdm
    rcases List.mem_cons.mp hdm with h | h
    · exact ⟨(nm, t), by simp, h⟩
    · obtain ⟨x, hx, hxe⟩ := ih d h
      exact ⟨x, List.mem_cons_of_mem _ hx, hxe⟩

/-- C5: on a tree where every file size is readable, every node of the
    scan result satisfies the bottom-up aggregation invariant; and a
    directory whose listing itself fails scans to a node with empty
    children and files and zero aggregates, contributing nothing to its
    ancestors. -/
theorem scan_aggregation_invariant (cfg : Config) (t : FsTree) (h : NoSizeFail t)
    (rootPath rootName : String) :
    NodeWf (scan_directory_structure cfg rootPath rootName t) ∧
    scan_directory_structure cfg rootPath rootName FsTree.fail =
      DirNode.mk rootPath rootName [] [] 0 0 := by
  refine ⟨?_, rfl⟩
  induction h generalizing rootPath rootName with
  | fail =>
    exact NodeWf.mk _ (by simp [scan_directory_structure, DirNode.subdirs])
      (by simp [scan_directory_structure, DirNode.archive_count, DirNode.files, DirNode.subdirs])
      (by simp [scan_directory_structure, DirNode.total_size, DirNode.files, DirNode.subdirs])
  | node files subdirs hf hs ih =>
    obtain ⟨frs, hfrs⟩ := scan_files_pass_ok cfg rootPath files hf
    refine NodeWf.mk _ ?_ ?_ ?_
    · intro d hd
      rw [scan_directory_structure, hfrs] at hd
      simp only [DirNode.subdirs] at hd
      obtain ⟨x, hx, rfl⟩ := scan_subdirs_mem cfg rootPath subdirs d hd
      exact ih x hx (path_join rootPath x.1) x.1
    · rw [scan_directory_structure, hfrs]
      simp [DirNode.archive_count, DirNode.files, DirNode.subdirs]
    · rw [scan_directory_structure, hfrs]
      simp [DirNode.total_size, DirNode.files, DirNode.subdirs]

/-- A small concrete tree for the C5 witness: one archive file at the
    root and one subdirectory holding another archive. -/
def c5tree : FsTree :=
  .node [("a.zip", some 2000000)] [("sub", .node [("b.cbz", some 3000)] [])]

/-- C5 witness: the invariant theorem applied to the concrete tree. -/
theorem scan_aggregation_invariant_witness :
    NodeWf (scan_directory_structure cfgDefault "/r" "r" c5tree) ∧
    scan_directory_structure cfgDefault "/r" "r" FsTree.fail =
      DirNode.mk "/r" "r" [] [] 0 0 :=
  scan_aggregation_invariant cfgDefault c5tree
    (NoSizeFail.node _ _ (by decide)
      (by
        intro s hs
        rw [List.mem_singleton] at hs
        subst hs
        exact NoSizeFail.node _ _ (by decide) (by intro x hx; simp at hx)))
    "/r" "r"

/-- A tree on which a getsize failure (e.g. a broken symbolic link)
    aborts the listing loop after an archive was already counted. -/
def c5badTree : FsTree := .node [("a.zip", some 2000000), ("b.zip", none)] []

/-- C5 counterexample: scanning c5badTree yields a node whose
    archive_count is 1 while its files and subdirs are empty, so the
    claimed aggregation equation fails on a tree returned by the
    scanner. -/
theorem scan_partial_aggregates_counterexample :
    (scan_directory_structure cfgDefault "/r" "r" c5badTree).archive_count ≠
      ((((scan_directory_structure cfgDefault "/r" "r" c5badTree).files.filter
          (fun f => f.is_archive)).length) +
       (((scan_directory_structure cfgDefault "/r" "r" c5badTree).subdirs.map
          DirNode.archive_count).sum)) := by
  decide

/-! ### scan.py: load_check_history (the check journal)

A journal file is a list of lines; each line is blank, not valid JSON,
or a JSON record whose path field is absent or null (modelled none),
empty, or a proper string.  A missing journal file is modelled by none. -/

/-- One line of the journal file after str.strip. -/
inductive JLine where
  | blank
  | malformed
  | record (path : Option String) (timestamp : Option String) (valid : Option Bool)

/-- The value stored per path by load_check_history. -/
structure HistEntry where
  timestamp : Option String
  valid : Option Bool
deriving DecidableEq

/-- The history dictionary, keyed by path.  Python dict update keeps the
    original position of an existing key, so update is replace-in-place
    or append. -/
abbrev Hist := List (String × HistEntry)

/-- Python dict assignment history[k] = v. -/
def histSet : Hist → String → HistEntry → Hist
  | [], k, v => [(k, v)]
  | (k0, v0) :: rest, k, v =>
    if k0 = k then (k, v) :: rest else (k0, v0) :: histSet rest k v

/-- Python dict lookup history.get(k). -/
def histGet : Hist → String → Option HistEntry
  | [], _ => none
  | (k0, v0) :: rest, k => if k0 = k then some v0 else histGet rest k

/-- Processing of one journal line by load_check_history: blank lines
    and JSON decode errors are skipped, and a record is stored only when
    entry.get('path') is truthy, i.e. a nonempty string. -/
def apply_line (h : Hist) : JLine → Hist
  | .blank => h
  | .malformed => h
  | .record p ts vl =>
    match p with
    | some s => if s = "" then h else histSet h s ⟨ts, vl⟩
    | none => h

/-- load_check_history from scan.py: a missing file loads as the empty
    history, otherwise the lines are folded into the dictionary. -/
def load_check_history : Option (List JLine) → Hist
  | none => []
  | some lines => lines.foldl apply_line []

/-- The entry a single line contributes for path p, if any. -/
def line_entry (p : String) : JLine → Option HistEntry
  | .record (some s) ts vl => if s ≠ "" ∧ s = p then some ⟨ts, vl⟩ else none
  | _ => none

/-- The last record for path p in file order. -/
def last_record (p : String) : List JLine → Option HistEntry
  | [] => none
  | l :: ls =>
    match last_record p ls with
    | some e => some e
    | none => line_entry p l

theorem histGet_histSet (h : Hist) (k : String) (v : HistEntry) (q : String) :
    histGet (histSet h k v) q = if k = q then some v else histGet h q := by
  induction h with
  | nil => simp [histSet, histGet]
  | cons hd tl ih =>
    obtain ⟨k0, v0⟩ := hd
    by_cases hk : k0 = k
    · subst hk
      by_cases hq : k0 = q
      · subst hq; simp [histSet, histGet]
      · simp [histSet, histGet, hq]
    · by_cases hq : k0 = q
      · subst hq
        have : ¬ k = k0 := fun he => hk he.symm
        simp [histSet, histGet, hk, this]
      · simp [histSet, histGet, hk, hq, ih]

theorem foldl_apply_line_get (lines : List JLine) (h : Hist) (p : String) :
    histGet (lines.foldl apply_line h) p =
      match last_record p lines with
      | some e => some e
      | none => histGet h p := by
  induction lines generalizing h with
  | nil => simp [last_record]
  | cons l ls ih =>
    rw [List.foldl_cons, ih, last_record]
    cases hrec : last_record p ls with
    | some e => rfl
    | none =>
      cases l with
      | blank => rfl
      | malformed => rfl
      | record q ts vl =>
        cases q with
        | none => rfl
        | some s =>
          by_cases hse : s = ""
          · subst hse
            simp [apply_line, line_entry]
          · by_cases hsp : s = p
            · subst hsp
              simp [apply_line, line_entry, hse, histGet_histSet]
            · simp [apply_line, line_entry, hse, hsp, histGet_histSet]

/-- C6 amended: for every journal file and path, the loaded history
    holds exactly the record appearing last in the file for that path
    (last-write-wins by file order); in particular a path with a single
    record keeps that record.  This coincides with the later-timestamped
    record only when timestamps are nondecreasing in file order, which
    the appender guarantees but the loader does not check. -/
theorem journal_load_last_write_wins (lines : List JLine) (p : String) :
    histGet (load_check_history (some lines)) p = last_record p lines := by
  rw [load_check_history, foldl_apply_line_get]
  cases last_record p lines with
  | some e => rfl
  | none => simp [histGet]

/-- C6 counterexample: a journal whose two records for path p carry
    decreasing timestamps.  The loader retains the second, earlier
    timestamped record, not the later timestamped one. -/
theorem journal_last_in_file_counterexample :
    histGet (load_check_history (some
      [JLine.record (some "p") (some "2024-01-02T00:00:00") (some true),
       JLine.record (some "p") (some "2024-01-01T00:00:00") (some false)])) "p" =
      some ⟨some "2024-01-01T00:00:00", some false⟩ ∧
    ("2024-01-01T00:00:00".data < "2024-01-02T00:00:00".data) := by
  refine ⟨by decide, by decide⟩

/-- The contribution of a line kept by the loader: a JSON record whose
    path is a nonempty string. -/
def good_record : JLine → Option (String × HistEntry)
  | .record (some s) ts vl => if s = "" then none else some (s, ⟨ts, vl⟩)
  | _ => none

theorem foldl_apply_line_filterMap (lines : List JLine) (h : Hist) :
    lines.foldl apply_line h =
      (lines.filterMap good_record).foldl (fun h e => histSet h e.1 e.2) h := by
  induction lines generalizing h with
  | nil => rfl
  | cons l ls ih =>
    rw [List.foldl_cons, ih]
    cases l with
    | blank => rfl
    | malformed => rfl
    | record q ts vl =>
      cases q with
      | none => rfl
      | some s =>
        by_cases hse : s = ""
        · subst hse; simp [apply_line, good_record]
        · simp [apply_line, good_record, hse]

/-- C10 amended: loading never fails (the model is a total function); a
    missing journal file loads as the empty history; and blank lines,
    undecodable lines, and records without a truthy path (absent, null
    or empty string) are skipped, the result being built from exactly
    the records carrying a nonempty path. -/
theorem journal_load_skips_malformed :
    load_check_history none = [] ∧
    ∀ lines, load_check_history (some lines) =
      (lines.filterMap good_record).foldl (fun h e => histSet h e.1 e.2) [] := by
  refine ⟨rfl, fun lines => ?_⟩
  rw [load_check_history, foldl_apply_line_filterMap]

/-- C10 counterexample: a record with a present but empty path field is
    valid JSON with a path key, yet the loader drops it, so the loaded
    history is not built from all well-formed records. -/
theorem empty_path_record_skipped :
    load_check_history (some [JLine.record (some "") (some "t") (some true)]) = [] ∧
    (some "" : Option String).isSome = true := by
  refine ⟨by decide, rfl⟩

/-! ### process.py: collect_files_from_structure (skip of checked files) -/

/-- Candidacy test of the collection loop: the file name (lower-cased)
    matches an archive extension and the path does not end in .tdel. -/
def is_candidate (cfg : Config) (f : FileRec) : Bool :=
  has_archive_ext cfg f.name && !(endsWithStr f.path ".tdel")

/-- The skip test: the path is in the history and its latest record has
    valid exactly True. -/
def hist_marks_valid (hist : Hist) (p : String) : Bool :=
  match histGet hist p with
  | some e => e.valid == some true
  | none => false

mutual

/-- collect_files_from_structure from process.py: gather the candidate
    archive paths of the node, skipping those already marked valid when
    skip_checked is set, then recurse into the subdirectories. -/
def collect_files_from_structure (cfg : Config) (skip_checked : Bool) (hist : Hist) :
    DirNode → List String
  | .mk _ _ subdirs files _ _ =>
    files.filterMap (fun f =>
      if is_candidate cfg f then
        if skip_checked && hist_marks_valid hist f.path then none
        else some f.path
      else none)
    ++ collect_files_list cfg skip_checked hist subdirs

/-- The recursion of collect_files_from_structure over the subdirectory
    nodes. -/
def collect_files_list (cfg : Config) (skip_checked : Bool) (hist : Hist) :
    List DirNode → List String
  | [] => []
  | d :: rest =>
    collect_files_from_structure cfg skip_checked hist d
      ++ collect_files_list cfg skip_checked hist rest

end

/-- Every candidate file in the tree is marked valid by the journal. -/
inductive AllMarkedValid (cfg : Config) (hist : Hist) : DirNode → Prop where
  | mk (p nm : String) (subdirs : List DirNode) (files : List FileRec) (ac ts : Nat) :
      (∀ f ∈ files, is_candidate cfg f = true → hist_marks_valid hist f.path = true) →
      (∀ s ∈ subdirs, AllMarkedValid cfg hist s) →
      AllMarkedValid cfg hist (.mk p nm subdirs files ac ts)

/-- C7: with skip_checked set and a journal whose latest record for
    every candidate path is valid, the collection pass returns the empty
    work list, so the batch makes zero external test invocations (the
    check loop runs once per collected path and the batch returns before
    any check when the list is empty). -/
theorem skip_checked_collects_nothing (cfg : Config) (hist : Hist) (n : DirNode)
    (h : AllMarkedValid cfg hist n) :
    collect_files_from_structure cfg true hist n = [] := by
  induction h with
  | mk p nm subdirs files ac ts h1 h2 ih =>
    rw [collect_files_from_structure]
    have hfiles : files.filterMap (fun f =>
        if is_candidate cfg f then
          if true && hist_marks_valid hist f.path then none
          else some f.path
        else none) = [] := by
      rw [List.filterMap_eq_nil_iff]
      intro f hf
      by_cases hc : is_candidate cfg f = true
      · simp [hc, h1 f hf hc]
      · simp [hc]
    have hsubs : ∀ l, (∀ s ∈ l, s ∈ subdirs) → collect_files_list cfg true hist l = [] := by
      intro l
      induction l with
      | nil => intro _; rfl
      | cons d rest ihl =>
        intro hmem
        rw [collect_files_list, ih d (hmem d (by simp)),
          ihl (fun s hs => hmem s (List.mem_cons_of_mem _ hs))]
        rfl
    rw [hfiles, hsubs subdirs (fun s hs => hs)]
    rfl

/-- C7 witness: a tree with one already validated archive yields an
    empty work list. -/
theorem skip_checked_collects_nothing_witness :
    collect_files_from_structure cfgDefault true
      [("/r/a.zip", ⟨some "2024-01-01T00:00:00", some true⟩)]
      (DirNode.mk "/r" "r" [] [⟨"a.zip", "/r/a.zip", 2000000, true⟩] 1 2000000) = [] :=
  skip_checked_collects_nothing cfgDefault
    [("/r/a.zip", ⟨some "2024-01-01T00:00:00", some true⟩)]
    (DirNode.mk "/r" "r" [] [⟨"a.zip", "/r/a.zip", 2000000, true⟩] 1 2000000)
    (AllMarkedValid.mk _ _ _ _ _ _ (by decide) (by intro s hs; simp at hs))

/-! ### scan.py: check_archive

Two aspects are modelled separately: the dynamic timeout computation and
the outcome handling of the external 7z process. -/

/-- The dynamic timeout of check_archive:
    max(min_timeout, min(max_timeout, timeout + (size // 100MB) * timeout_per_100mb)). -/
def dynamic_check_timeout (base_timeout min_timeout max_timeout per_100mb file_size : Nat) : Nat :=
  max min_timeout (min max_timeout
    (base_timeout + (file_size / (100 * 1024 * 1024)) * per_100mb))

/-- Modelled from the spec: the clamp combinator the spec states the
    timeout with, clamp(lo, hi, x). -/
def clamp_spec (lo hi x : Nat) : Nat := max lo (min hi x)

/-- C8: the integrity-check timeout is exactly
    clamp(min, max, base + floor(size / 100MB) * increment), and the
    spec scenario holds: a 250MB file with base 300s, increment 60s per
    100MB, minimum 60s and maximum 1800s gets a 420s timeout. -/
theorem check_timeout_clamp (base mn mx per size : Nat) :
    dynamic_check_timeout base mn mx per size =
      clamp_spec mn mx (base + (size / (100 * 1024 * 1024)) * per) ∧
    dynamic_check_timeout 300 60 1800 60 (250 * 1024 * 1024) = 420 :=
  ⟨rfl, by decide⟩

/-- The outcome of the external 7z invocation for one file, covering the
    exception branches of check_archive. -/
inductive SubprocResult where
  | completed (exitCode : Int)
  | timedOut
  | execMissing
  | permissionDenied
  | osFailure
  | unknownFailure
deriving DecidableEq

/-- The distinct logger messages emitted by check_archive. -/
inductive LogEvent where
  | checkingFile
  | fileIntact
  | fileCorrupt
  | checkTimedOut
  | missingToolError
  | permissionLog
  | osErrorLog
  | unknownErrorLog
deriving DecidableEq

/-- check_archive from scan.py, given the outcome of the subprocess run:
    the returned validity together with the log messages of the call.
    Every exception branch is caught and yields False; the missing 7z
    executable logs its own environment-error message. -/
def check_archive (r : SubprocResult) : Bool × List LogEvent :=
  match r with
  | .completed c =>
    if c = 0 then (true, [.checkingFile, .fileIntact])
    else (false, [.checkingFile, .fileCorrupt])
  | .timedOut => (false, [.checkingFile, .checkTimedOut])
  | .execMissing => (false, [.checkingFile, .missingToolError])
  | .permissionDenied => (false, [.checkingFile, .permissionLog])
  | .osFailure => (false, [.checkingFile, .osErrorLog])
  | .unknownFailure => (false, [.checkingFile, .unknownErrorLog])

/-- One check_archive call per file of the batch, collecting the
    validity verdicts and the concatenated log. -/
def run_check_batch : List SubprocResult → List Bool × List LogEvent
  | [] => ([], [])
  | r :: rest =>
    let one := check_archive r
    let more := run_check_batch rest
    (one.1 :: more.1, one.2 ++ more.2)

/-- C9 amended: when the external tester is absent every check of the
    batch returns invalid without raising, and the missing-tool
    environment error is logged once per invocation, i.e. as many times
    as there are files, not once per batch; it is distinguishable from a
    corruption verdict only through the log message, not through the
    returned boolean. -/
theorem missing_tool_fails_closed (calls : List SubprocResult)
    (h : ∀ c ∈ calls, c = SubprocResult.execMissing) :
    (run_check_batch calls).1 = calls.map (fun _ => false) ∧
    (run_check_batch calls).2.count LogEvent.missingToolError = calls.length := by
  induction calls with
  | nil => exact ⟨rfl, rfl⟩
  | cons c rest ih =>
    have hc : c = SubprocResult.execMissing := h c (by simp)
    subst hc
    obtain ⟨ih1, ih2⟩ := ih (fun x hx => h x (List.mem_cons_of_mem _ hx))
    constructor
    · rw [run_check_batch]
      simp [check_archive, ih1]
    · rw [run_check_batch]
      simp [check_archive, List.count_cons, List.count_append, ih2, Nat.add_comm]

/-- C9 witness: a single absent-tester call returns invalid and logs the
    environment error once. -/
theorem missing_tool_fails_closed_witness :
    (run_check_batch [SubprocResult.execMissing]).1 = [false] ∧
    (run_check_batch [SubprocResult.execMissing]).2.count LogEvent.missingToolError = 1 :=
  missing_tool_fails_closed [SubprocResult.execMissing] (by decide)

/-- C9 counterexample: a two-file batch with the tester absent surfaces
    the missing-tool error twice, not exactly once per batch. -/
theorem missing_tool_logged_per_invocation :
    (run_check_batch [SubprocResult.execMissing, SubprocResult.execMissing]).2.count
        LogEvent.missingToolError = 2 ∧
    ¬ ((run_check_batch [SubprocResult.execMissing, SubprocResult.execMissing]).2.count
        LogEvent.missingToolError = 1) ∧
    (run_check_batch [SubprocResult.execMissing, SubprocResult.execMissing]).1 =
      [false, false] := by
  refine ⟨by decide, by decide, by decide⟩

/-! ### process.py: the executor loop of compare_and_copy_archives

The filesystem is modelled as an association list from path to an
abstract content value; equal content means byte-identical files.  The
shutil calls that can raise inside the per-operation try block are
modelled by explicit failure flags on the operation: backup_copy_raises
(the backup copy2), transfer_raises (the move/copy itself, which may
leave arbitrary junk at the target), and restore_raises (the rollback
copy2).  A transfer whose source path is missing also raises. -/

/-- Path to content map; the head entry for a path shadows older ones. -/
abbrev FileSys := List (String × Nat)

def fsGet : FileSys → String → Option Nat
  | [], _ => none
  | (q, v) :: rest, p => if q = p then some v else fsGet rest p

def fsSet (fs : FileSys) (p : String) (v : Nat) : FileSys := (p, v) :: fs

def fsErase (fs : FileSys) (p : String) : FileSys :=
  fs.filter (fun e => decide (e.1 ≠ p))

/-- Operation kind of ArchiveOperation. -/
inductive OpType where
  | copy
  | move
deriving DecidableEq

/-- Execution status of ArchiveOperation. -/
inductive OpStatus where
  | pending
  | success
  | error
deriving DecidableEq

/-- One planned operation together with the failure behaviour of the
    environment during its execution. -/
structure ArchiveOperation where
  source_path : String
  target_path : String
  operation_type : OpType
  timestamp : String
  backup_copy_raises : Bool
  transfer_raises : Bool
  transfer_junk : Option Nat
  restore_raises : Bool

/-- The backup path built by backup_file when no backup directory is
    configured: the sibling name.timestamp.upbak. -/
def backup_name (file_path ts : String) : String :=
  file_path ++ "." ++ ts ++ ".upbak"

/-- backup_file from operation.py: returns none when the file is missing
    or the copy raises, otherwise copies the content to the backup path
    and returns it. -/
def backup_file (fs : FileSys) (file_path ts : String) (copyRaises : Bool) :
    Option String × FileSys :=
  match fsGet fs file_path with
  | none => (none, fs)
  | some c =>
    if copyRaises then (none, fs)
    else (some (backup_name file_path ts), fsSet fs (backup_name file_path ts) c)

/-- The status and backup path recorded on the operation. -/
structure OpResult where
  status : OpStatus
  backup_path : Option String
deriving DecidableEq

/-- One iteration of the executor loop: back up an existing target, then
    transfer; on any exception record the error and, when a backup
    exists, attempt to copy it back onto the target. -/
def execute_operation (op : ArchiveOperation) (fs : FileSys) : OpResult × FileSys :=
  let bk :=
    if (fsGet fs op.target_path).isSome then
      backup_file fs op.target_path op.timestamp op.backup_copy_raises
    else (none, fs)
  let bpath := bk.1
  let fs1 := bk.2
  if op.transfer_raises || (fsGet fs1 op.source_path).isNone then
    let fs2 :=
      match op.transfer_junk with
      | some j => fsSet fs1 op.target_path j
      | none => fs1
    let fs3 :=
      match bpath with
      | some b =>
        match fsGet fs2 b with
        | some c => if op.restore_raises then fs2 else fsSet fs2 op.target_path c
        | none => fs2
      | none => fs2
    (⟨.error, bpath⟩, fs3)
  else
    match fsGet fs1 op.source_path with
    | some c =>
      let fs2 := fsSet fs1 op.target_path c
      match op.operation_type with
      | .move => (⟨.success, bpath⟩, fsErase fs2 op.source_path)
      | .copy => (⟨.success, bpath⟩, fs2)
    | none => (⟨.error, bpath⟩, fs1)

/-- The executor loop over the approved operations: strictly sequential,
    every operation is executed whatever happened to the previous ones. -/
def execute_operations : List ArchiveOperation → FileSys → List OpResult × FileSys
  | [], fs => ([], fs)
  | op :: rest, fs =>
    let one := execute_operation op fs
    let more := execute_operations rest one.2
    (one.1 :: more.1, more.2)

theorem fsGet_fsSet_same (fs : FileSys) (p : String) (v : Nat) :
    fsGet (fsSet fs p v) p = some v := by
  simp [fsGet, fsSet]

theorem fsGet_fsSet_ne (fs : FileSys) (p : String) (v : Nat) (q : String) (h : p ≠ q) :
    fsGet (fsSet fs p v) q = fsGet fs q := by
  simp [fsGet, fsSet, h]

theorem backup_name_ne (p ts : String) : backup_name p ts ≠ p := by
  intro h
  have h2 := congrArg String.length h
  rw [backup_name] at h2
  simp only [String.length_append] at h2
  have l1 : String.length "." = 1 := rfl
  have l2 : String.length ".upbak" = 6 := rfl
  rw [l1, l2] at h2
  omega

theorem execute_operations_length (ops : List ArchiveOperation) (fs : FileSys) :
    (execute_operations ops fs).1.length = ops.length := by
  induction ops generalizing fs with
  | nil => rfl
  | cons op rest ih =>
    rw [execute_operations]
    simp [ih]

/-- C3: if the target existed (content orig), the backup copy succeeded,
    the transfer raised, and the restore copy succeeded, then after the
    operation the target again holds orig byte-identically, the
    operation is marked error, and the batch still executes every
    remaining operation (one result per operation, no abort). -/
theorem executor_rollback_restores_target
    (op : ArchiveOperation) (rest : List ArchiveOperation) (fs : FileSys) (orig : Nat)
    (htgt : fsGet fs op.target_path = some orig)
    (hbk : op.backup_copy_raises = false)
    (hfail : op.transfer_raises = true)
    (hres : op.restore_raises = false) :
    fsGet (execute_operation op fs).2 op.target_path = some orig ∧
    (execute_operation op fs).1.status = OpStatus.error ∧
    (execute_operations (op :: rest) fs).1.length = rest.length + 1 := by
  have hlen : (execute_operations (op :: rest) fs).1.length = rest.length + 1 := by
    rw [execute_operations_length]
    rfl
  have hBne : op.target_path ≠ backup_name op.target_path op.timestamp :=
    fun h => backup_name_ne op.target_path op.timestamp h.symm
  have hbkf : backup_file fs op.target_path op.timestamp op.backup_copy_raises =
      (some (backup_name op.target_path op.timestamp),
       fsSet fs (backup_name op.target_path op.timestamp) orig) := by
    rw [backup_file, htgt, hbk]
    simp
  cases hj : op.transfer_junk with
  | none =>
    refine ⟨?_, ?_, hlen⟩ <;>
      simp [execute_operation, htgt, hbkf, hfail, hres, hj,
        fsGet_fsSet_same, fsGet_fsSet_ne _ _ _ _ hBne]
  | some j =>
    refine ⟨?_, ?_, hlen⟩ <;>
      simp [execute_operation, htgt, hbkf, hfail, hres, hj,
        fsGet_fsSet_same, fsGet_fsSet_ne _ _ _ _ hBne]

/-- A concrete failing copy operation for the C3 witness. -/
def c3op : ArchiveOperation :=
  { source_path := "/s/a.zip"
    target_path := "/t/a.zip"
    operation_type := .copy
    timestamp := "20240101_000000"
    backup_copy_raises := false
    transfer_raises := true
    transfer_junk := some 77
    restore_raises := false }

/-- C3 witness: the rollback theorem applied to a concrete filesystem
    where the target held content 5 before the failing operation. -/
theorem executor_rollback_restores_target_witness :
    fsGet (execute_operation c3op [("/t/a.zip", 5), ("/s/a.zip", 9)]).2 "/t/a.zip" = some 5 ∧
    (execute_operation c3op [("/t/a.zip", 5), ("/s/a.zip", 9)]).1.status = OpStatus.error ∧
    (execute_operations [c3op] [("/t/a.zip", 5), ("/s/a.zip", 9)]).1.length = 1 :=
  executor_rollback_restores_target c3op [] [("/t/a.zip", 5), ("/s/a.zip", 9)] 5
    (by decide) rfl rfl rfl
